import Mathlib

/-!
# Verification of the `zod-figure` configuration lifecycle engine

Shallow embedding of the `ZodConfig` class (`src/index.ts`) and its
collaborators (`src/adapters/*`, `src/Logger.ts`, `src/errors.ts`).

Modelling conventions:
* JavaScript objects are association lists (`Obj`); lookup takes the first
  binding, which matches JS objects since keys there are unique.  Object
  spread `{ ...base, ...overlay }` is modelled by `mergeObj`, whose lookup
  semantics (overlay wins, base otherwise) is the observable behaviour of
  the spread; key ordering inside the merged object is irrelevant because
  the merged object is only consumed through per-key lookup by the schema
  validator.
* zod schemas are opaque validators: a field validator is a function
  `Option Value → Option Value` — the input is the (possibly absent) raw
  value at the field's key, `none` output means a thrown `ZodError`, and a
  `some` output is the parsed/coerced value.  `z.object` over the field map
  is `parseWithSchema`; the derived environment-overlay object schema
  (every env-bound field wrapped in `.optional()`, all other keys stripped)
  is `parseEnvWithSchema`.
* `structuredClone` is the identity here: Lean values are immutable, so the
  deep-copy discipline of the source cannot be distinguished from sharing.
* Listener callbacks are identified by numeric ids; dispatch is modelled as
  the emitted trace of `ListenerCall` records instead of running functions.
* Logging is modelled as the trace of `LogEvt` events handed to
  `Logger.log`; `defaultLogLevels` is the severity table of `Logger.ts`.
* JS truthiness shows up in three places of the source and is modelled
  explicitly: an empty string stored as `objectOrFileRef` is treated as
  "not loaded" by the private getter, an empty environment-variable value
  is skipped by `getEnvValues`, and a `0`/absent `reloadIntervalMs` does
  not arm the timer.
-/

namespace ZodFigure

/-- A JSON-like scalar value (the content of configuration fields). -/
inductive Value where
  | vNull : Value
  | vBool : Bool → Value
  | vNum : Int → Value
  | vStr : String → Value
deriving DecidableEq, Repr

/-- A JavaScript object: an association list from keys to values. -/
abbrev Obj := List (String × Value)

/-- First-match association-list lookup (JS property access). -/
def getKey (o : Obj) (k : String) : Option Value :=
  match o with
  | [] => none
  | (k', v) :: rest => if k' = k then some v else getKey rest k

/-- JS property assignment `o[k] = v`: overwrite the binding if the key is
present, append it otherwise. -/
def setKey (o : Obj) (k : String) (v : Value) : Obj :=
  match o with
  | [] => [(k, v)]
  | (k', v') :: rest => if k' = k then (k, v) :: rest else (k', v') :: setKey rest k v

/-- Lookup in a string-to-string association list (the process environment). -/
def lookupStr (l : List (String × String)) (k : String) : Option String :=
  match l with
  | [] => none
  | (k', v) :: rest => if k' = k then some v else lookupStr rest k

/-- Object spread `{ ...base, ...overlay }`: observably, a lookup that
prefers the overlay.  Represented as `overlay ++ base`, which has exactly
this first-match lookup semantics. -/
def mergeObj (base overlay : Obj) : Obj := overlay ++ base

/-- Model of `String.prototype.endsWith`: the pattern's characters are a suffix of
the string's characters. -/
def jsEndsWith (s pat : String) : Bool := decide (pat.data <:+ s.data)

/-- One entry of the declarative schema map (`ZodConfigSchemaMap`).  A plain
`z.ZodSchema` entry is a `Field` with `env := none`; a `ZodConfigProperty`
carries its optional environment binding. -/
structure Field where
  name : String
  validate : Option Value → Option Value
  env : Option String

/-- Model of `compiledSchema.parse`: every field of the schema map validates the value
found at its key in the input object (absent keys are passed as `none`);
unknown keys are stripped.  `none` models a thrown `ZodError`. -/
def parseWithSchema (schema : List Field) (o : Obj) : Option Obj :=
  match schema with
  | [] => some []
  | f :: rest =>
    match f.validate (getKey o f.name), parseWithSchema rest o with
    | some v, some restV => some ((f.name, v) :: restV)
    | _, _ => none

/-- Whether an object passes the compiled combined validator. -/
def satisfiesSchema (schema : List Field) (o : Obj) : Bool :=
  (parseWithSchema schema o).isSome

/-- Whether a field participates in the environment overlay schema:
`compileEnvSchema` keeps exactly the entries whose `env` property is truthy
(present and non-empty). -/
def envBound (f : Field) : Bool :=
  match f.env with
  | some ek => decide (ek ≠ "")
  | none => false

/-- Model of `compiledEnvSchema.parse`: only env-bound fields are validated, each
wrapped in `.optional()` — an absent key is valid and stays absent from the
output; all other keys are stripped. -/
def parseEnvWithSchema (schema : List Field) (o : Obj) : Option Obj :=
  match schema with
  | [] => some []
  | f :: rest =>
    if envBound f then
      match getKey o f.name with
      | none => parseEnvWithSchema rest o
      | some v =>
        match f.validate (some v), parseEnvWithSchema rest o with
        | some pv, some restE => some ((f.name, pv) :: restE)
        | _, _ => none
    else parseEnvWithSchema rest o

/-- Model of `getEnvValues`: for each env-bound field whose variable is set to a
truthy (non-empty) string, bind the raw string under the field's key. -/
def getEnvValues (schema : List Field) (env : List (String × String)) : Obj :=
  match schema with
  | [] => []
  | f :: rest =>
    match f.env with
    | some ek =>
      if ek = "" then getEnvValues rest env
      else
        match lookupStr env ek with
        | some s =>
          if s = "" then getEnvValues rest env
          else (f.name, Value.vStr s) :: getEnvValues rest env
        | none => getEnvValues rest env
    | none => getEnvValues rest env

/-- The severity levels of `Logger.ts`. -/
inductive LogLevel where
  | silent | debug | info | error
deriving DecidableEq, Repr

/-- The logging events of `Logger.ts` (`LogEvents`). -/
inductive LogEvt where
  | get | set | load | reload | compiledSchema | startReloadInterval
  | stopReloadInterval | error | runListeners | registeredListener
  | adapterSet | compiledEnvSchema
deriving DecidableEq, Repr

/-- The `defaultLogLevels` table of `Logger.ts`. -/
def defaultLogLevels : LogEvt → LogLevel
  | .get => .debug
  | .runListeners => .debug
  | .set => .debug
  | .startReloadInterval => .debug
  | .stopReloadInterval => .debug
  | .registeredListener => .debug
  | .compiledEnvSchema => .debug
  | .compiledSchema => .info
  | .load => .info
  | .reload => .info
  | .adapterSet => .info
  | .error => .error

/-- The trace of events handed to `Logger.log`, in order. -/
abbrev Logs := List LogEvt

/-- The error conditions of `errors.ts`, split by the distinct messages the
source attaches to them.  `AdapterError('Adapter not set.')` is
`adapterNotSet`; the parameterless `AdapterError()` of the adapters is
`adapterMismatch`. -/
inductive Err where
  | adapterNotSet | adapterMismatch | readFailure | parseFailure
  | validationFailure | notLoaded
deriving DecidableEq, Repr

/-- Decidable equality of `Except` results, so that concrete runs of the
engine can be checked by `decide`. -/
instance exceptDecEq {ε α : Type} [DecidableEq ε] [DecidableEq α] :
    DecidableEq (Except ε α) := fun x y =>
  match x, y with
  | .error a, .error b => decidable_of_iff (a = b) (by simp)
  | .ok a, .ok b => decidable_of_iff (a = b) (by simp)
  | .error _, .ok _ => isFalse (by simp)
  | .ok _, .error _ => isFalse (by simp)

/-- The adapter variants; a pluggable custom adapter is identified by a
numeric id whose behaviour lives in the `World`. -/
inductive Adapter where
  | jsonA | yamlA | objectA | customA (id : Nat)
deriving DecidableEq, Repr

/-- A source reference: a file path or an in-memory object. -/
inductive Ref where
  | path (s : String) | obj (o : Obj)
deriving DecidableEq, Repr

/-- The `load`/`loadSync` argument: a concrete reference or a function of the
parsed environment overlay. -/
inductive RefParam where
  | direct (r : Ref) | fromEnv (f : Obj → Ref)

/-- The resolution of a `RefParam` performed at the top of `preLoad`. -/
def resolveRef (p : RefParam) (envv : Obj) : Ref :=
  match p with
  | .direct r => r
  | .fromEnv f => f envv

/-- The external collaborators: the process environment, the file system
(path to text), the opaque JSON/YAML text decoders and the behaviour of
custom adapters. -/
structure World where
  env : List (String × String)
  files : List (String × String)
  jsonDecode : String → Option Obj
  yamlDecode : String → Option Obj
  customLoad : Nat → Ref → Except Err Obj

/-- One listener invocation, as observable data: the field, the identity of
the registered callback, and the two arguments `(newValue, oldValue)` it is
called with. -/
structure ListenerCall where
  key : String
  listenerId : Nat
  newValue : Option Value
  oldValue : Option Value
deriving DecidableEq, Repr

/-- The mutable state of a `ZodConfig` instance.  `listeners` is the flat
registration list: the callbacks for a key, in registration order, are its
entries with that key.  `intervalActive` abstracts `intervalCallback` being
non-null, and `loadMethodSet` abstracts `_loadMethod` being non-null. -/
structure ZState where
  schema : List Field
  adapter : Option Adapter
  objectOrFileRef : Option Ref
  currentConfigValue : Option Obj
  listeners : List (String × Nat)
  intervalActive : Bool
  reloadIntervalMs : Option Nat
  loadMethodSet : Bool

/-- The state built by the constructor (logging aside): no reference, no
snapshot, no listeners, no timer; a falsy (0) `reloadIntervalMs` is not
stored. -/
def initState (schema : List Field) (customAdapter : Option Adapter)
    (reloadIntervalMs : Option Nat) : ZState :=
  { schema := schema
    adapter := customAdapter
    objectOrFileRef := none
    currentConfigValue := none
    listeners := []
    intervalActive := false
    reloadIntervalMs :=
      match reloadIntervalMs with
      | some n => if n = 0 then none else some n
      | none => none
    loadMethodSet := false }

/-- The private `objectOrFileRef` getter: logs and throws `NotLoadedError`
when the stored reference is falsy (absent, or the empty string). -/
def getRefR (st : ZState) : Except Err Ref × Logs :=
  match st.objectOrFileRef with
  | none => (.error .notLoaded, [.error])
  | some r =>
    if r = Ref.path "" then (.error .notLoaded, [.error]) else (.ok r, [])

/-- The private `adapter` getter: logs and throws
`AdapterError('Adapter not set.')` when no adapter is assigned. -/
def getAdapterR (st : ZState) : Except Err Adapter × Logs :=
  match st.adapter with
  | none => (.error .adapterNotSet, [.error])
  | some a => (.ok a, [])

/-- Model of `Adapter#load`/`loadSync` of the four adapter variants.  The file
adapters require a string path, read it from the world's file system
(`ReadError` on a miss), then decode (`ParseError` on decoder failure); the
object adapter requires an object; a custom adapter defers to the world. -/
def adapterLoad (a : Adapter) (w : World) (r : Ref) : Except Err Obj × Logs :=
  match a, r with
  | .objectA, .obj o => (.ok o, [])
  | .objectA, .path _ => (.error .adapterMismatch, [.error])
  | .jsonA, .obj _ => (.error .adapterMismatch, [.error])
  | .jsonA, .path s =>
    match lookupStr w.files s with
    | none => (.error .readFailure, [.error])
    | some content =>
      match w.jsonDecode content with
      | none => (.error .parseFailure, [.error])
      | some o => (.ok o, [])
  | .yamlA, .obj _ => (.error .adapterMismatch, [.error])
  | .yamlA, .path s =>
    match lookupStr w.files s with
    | none => (.error .readFailure, [.error])
    | some content =>
      match w.yamlDecode content with
      | none => (.error .parseFailure, [.error])
      | some o => (.ok o, [])
  | .customA id, _ => (w.customLoad id r, [])

/-- Model of `setAdapter`: assign the explicit adapter if given; then, only when no
adapter is assigned, auto-select from the stored source reference — the
`.json` suffix check runs first, then the `.yaml`/`.yml` check, and an
object reference selects the object adapter.  A string with no recognised
suffix assigns nothing. -/
def setAdapterOp (st : ZState) (explicit : Option Adapter) :
    ZState × Except Err Unit × Logs :=
  let s1 :=
    match explicit with
    | some a => ({ st with adapter := some a }, [LogEvt.adapterSet])
    | none => (st, ([] : Logs))
  if s1.1.adapter.isSome then (s1.1, .ok (), s1.2)
  else
    let gr := getRefR s1.1
    match gr.1 with
    | .error e => (s1.1, .error e, s1.2 ++ gr.2)
    | .ok (.obj _) =>
      ({ s1.1 with adapter := some .objectA }, .ok (), s1.2 ++ gr.2 ++ [.adapterSet])
    | .ok (.path s) =>
      let s2 :=
        if jsEndsWith s ".json" then
          ({ s1.1 with adapter := some Adapter.jsonA }, [LogEvt.adapterSet])
        else (s1.1, ([] : Logs))
      let s3 :=
        if jsEndsWith s ".yaml" || jsEndsWith s ".yml" then
          ({ s2.1 with adapter := some Adapter.yamlA }, [LogEvt.adapterSet])
        else (s2.1, ([] : Logs))
      (s3.1, .ok (), s1.2 ++ gr.2 ++ s2.2 ++ s3.2)

/-- The net effect of the auto-selection policy on a non-falsy reference:
the later `.yaml`/`.yml` check overrides a `.json` assignment in the code,
so it takes precedence here. -/
def autoSelectRef (r : Ref) : Option Adapter :=
  match r with
  | .obj _ => some Adapter.objectA
  | .path s =>
    if jsEndsWith s ".yaml" || jsEndsWith s ".yml" then some Adapter.yamlA
    else if jsEndsWith s ".json" then some Adapter.jsonA
    else none

/-- Model of `parseEnvValues`: read the bound environment variables and validate the
resulting overlay against the compiled environment schema; a zod failure
(thrown `ZodError`) is a `validationFailure` and is not logged. -/
def parseEnvValuesOp (st : ZState) (w : World) : Except Err Obj :=
  match parseEnvWithSchema st.schema (getEnvValues st.schema w.env) with
  | some o => .ok o
  | none => .error .validationFailure

/-- Model of `preLoad`: parse the environment first, then resolve and store the
source reference, mark the load method, and run adapter auto-selection. -/
def preLoadOp (st : ZState) (w : World) (p : RefParam) :
    ZState × Except Err Obj × Logs :=
  match parseEnvValuesOp st w with
  | .error e => (st, .error e, [])
  | .ok envv =>
    let st1 := { st with objectOrFileRef := some (resolveRef p envv)
                         loadMethodSet := true }
    let sa := setAdapterOp st1 none
    match sa.2.1 with
    | .error e => (sa.1, .error e, sa.2.2)
    | .ok _ => (sa.1, .ok envv, sa.2.2)

/-- Model of `startReloadInterval`: a no-op while a timer is active; otherwise arm
with the given truthy interval, falling back to the configured default, and
log only when a timer was actually started. -/
def startReloadIntervalOp (st : ZState) (ms : Option Nat) : ZState × Logs :=
  if st.intervalActive then (st, [])
  else
    let truthy : Option Nat → Bool := fun o =>
      match o with
      | some n => decide (n ≠ 0)
      | none => false
    if truthy ms || truthy st.reloadIntervalMs then
      ({ st with intervalActive := true }, [.startReloadInterval])
    else (st, [])

/-- Model of `stopReloadInterval`: disarm if armed; the log line runs
unconditionally. -/
def stopReloadIntervalOp (st : ZState) : ZState × Logs :=
  ({ st with intervalActive := false }, [.stopReloadInterval])

/-- The listeners registered for a key, in registration order. -/
def listenersFor (st : ZState) (k : String) : List (String × Nat) :=
  st.listeners.filter (fun q => decide (q.1 = k))

/-- Model of `runListener`: log, then invoke every listener of the key, in order,
with the new and old values. -/
def runListenerOp (st : ZState) (k : String) (nv ov : Option Value) :
    List ListenerCall × Logs :=
  ((listenersFor st k).map
    (fun q => { key := k, listenerId := q.2, newValue := nv, oldValue := ov }),
   [.runListeners])

/-- The keys of the old snapshot whose values are not structurally equal in
the new snapshot (`getChangedKeys`, with `lodash.isequal` as structural
equality). -/
def getChangedKeys (oldC newC : Obj) : List String :=
  (oldC.map Prod.fst).filter (fun k => decide (getKey oldC k ≠ getKey newC k))

/-- Model of `runListeners`: nothing on a first load; otherwise dispatch, per changed
key, to that key's listeners with the new and old field values. -/
def runListenersOp (st : ZState) (newv : Obj) (old : Option Obj) :
    List ListenerCall × Logs :=
  match old with
  | none => ([], [])
  | some o =>
    ((getChangedKeys o newv).flatMap
       (fun k => (runListenerOp st k (getKey newv k) (getKey o k)).1),
     (getChangedKeys o newv).map (fun _ => LogEvt.runListeners))

/-- Model of `postLoad`: merge `{ ...raw, ...envv }` and validate; a zod failure
leaves the snapshot assignment unexecuted and is not logged.  On success the
snapshot is replaced, listeners run against the prior snapshot, the timer is
(idempotently) armed, and the load is logged. -/
def postLoadOp (st : ZState) (envv raw : Obj) :
    ZState × Except Err (List ListenerCall) × Logs :=
  match parseWithSchema st.schema (mergeObj raw envv) with
  | none => (st, .error .validationFailure, [])
  | some newv =>
    let old := st.currentConfigValue
    let st1 := { st with currentConfigValue := some newv }
    let rl := runListenersOp st1 newv old
    let sr := startReloadIntervalOp st1 none
    (sr.1, .ok rl.1, rl.2 ++ sr.2 ++ [.load])

/-- Model of `load`/`loadSync`: `preLoad`, then the adapter getter, the reference
getter, the adapter's load, and `postLoad`.  Any thrown error aborts the
remaining steps and propagates. -/
def loadOp (st : ZState) (w : World) (p : RefParam) :
    ZState × Except Err (List ListenerCall) × Logs :=
  let pre := preLoadOp st w p
  match pre.2.1 with
  | .error e => (pre.1, .error e, pre.2.2)
  | .ok envv =>
    let ga := getAdapterR pre.1
    match ga.1 with
    | .error e => (pre.1, .error e, pre.2.2 ++ ga.2)
    | .ok a =>
      let gr := getRefR pre.1
      match gr.1 with
      | .error e => (pre.1, .error e, pre.2.2 ++ ga.2 ++ gr.2)
      | .ok r =>
        let al := adapterLoad a w r
        match al.1 with
        | .error e => (pre.1, .error e, pre.2.2 ++ ga.2 ++ gr.2 ++ al.2)
        | .ok raw =>
          let po := postLoadOp pre.1 envv raw
          (po.1, po.2.1, pre.2.2 ++ ga.2 ++ gr.2 ++ al.2 ++ po.2.2)

/-- Model of `get`: requires a snapshot (`NotLoadedError` otherwise) and returns the
field's current value. -/
def getOp (st : ZState) (k : String) : Except Err (Option Value) × Logs :=
  match st.currentConfigValue with
  | none => (.error .notLoaded, [.error])
  | some cur => (.ok (getKey cur k), [.get])

/-- Model of `set`: requires a snapshot; stores the given value under the key without
consulting any validator, then always dispatches that key's listeners with
the new and previous values. -/
def setOp (st : ZState) (k : String) (v : Value) :
    ZState × Except Err (List ListenerCall) × Logs :=
  match st.currentConfigValue with
  | none => (st, .error .notLoaded, [.error])
  | some cur =>
    let st1 := { st with currentConfigValue := some (setKey cur k v) }
    let rl := runListenerOp st1 k (some v) (getKey cur k)
    (st1, .ok rl.1, [.set] ++ rl.2)

/-- Model of `addListener`: append the callback to the key's sequence. -/
def addListenerOp (st : ZState) (k : String) (id : Nat) : ZState × Logs :=
  ({ st with listeners := st.listeners ++ [(k, id)] }, [.registeredListener])

/-- One tick of the reload interval callback: the `loadMethod` getter, the
`objectOrFileRef` getter, then the full load with the stored reference.  The
callback installs no error handler: a failing load aborts the tick before
the reload log line and the error escapes the callback. -/
def reloadTickOp (st : ZState) (w : World) :
    ZState × Except Err (List ListenerCall) × Logs :=
  if st.loadMethodSet then
    let gr := getRefR st
    match gr.1 with
    | .error e => (st, .error e, gr.2)
    | .ok r =>
      let lo := loadOp st w (.direct r)
      match lo.2.1 with
      | .error e => (lo.1, .error e, gr.2 ++ lo.2.2)
      | .ok calls => (lo.1, .ok calls, gr.2 ++ lo.2.2 ++ [.reload])
  else (st, .error .notLoaded, [.error])

/-! ## Concrete fixtures

Test schemas and worlds used to instantiate the theorems, mirroring the
repository's own test fixtures (`port: z.coerce.number(), env: 'PORT'`,
`host: z.string(), env: 'HOST'`). -/

/-- Digit-string parser used to model `Number(...)` coercion on strings. -/
def strToNat? (s : String) : Option Nat :=
  match s.data with
  | [] => none
  | cs =>
    cs.foldl
      (fun acc c =>
        match acc with
        | some n => if c.isDigit then some (n * 10 + (c.toNat - 48)) else none
        | none => none)
      (some 0)

/-- A validator behaving like `z.coerce.number()` on the values of this
model: numbers pass through, digit strings are coerced, booleans numerify,
everything else fails. -/
def coerceNumber : Option Value → Option Value
  | some (Value.vNum n) => some (Value.vNum n)
  | some (Value.vStr s) => (strToNat? s).map (fun n => Value.vNum (Int.ofNat n))
  | some (Value.vBool b) => some (Value.vNum (if b then 1 else 0))
  | _ => none

/-- A validator behaving like `z.string()`. -/
def strOnly : Option Value → Option Value
  | some (Value.vStr s) => some (Value.vStr s)
  | _ => none

/-- A validator behaving like `z.number()`. -/
def numOnly : Option Value → Option Value
  | some (Value.vNum n) => some (Value.vNum n)
  | _ => none

/-- A validator behaving like `z.number().max(10)`: type-correct values can
still be rejected. -/
def numAtMost10 : Option Value → Option Value
  | some (Value.vNum n) => if n ≤ 10 then some (Value.vNum n) else none
  | _ => none

/-- The `port` field of the test schema: `z.coerce.number(), env: 'PORT'`. -/
def portField : Field :=
  { name := "port", validate := coerceNumber, env := some "PORT" }

/-- The `host` field of the test schema: `z.string(), env: 'HOST'`. -/
def hostField : Field :=
  { name := "host", validate := strOnly, env := some "HOST" }

/-- The test schema: a coerced numeric `port` bound to `PORT` and a string
`host` bound to `HOST`. -/
def exSchema : List Field := [portField, hostField]

/-- A world with nothing set: no environment variables, no files. -/
def emptyWorld : World :=
  { env := [], files := [], jsonDecode := fun _ => none,
    yamlDecode := fun _ => none, customLoad := fun _ _ => .error .readFailure }

/-- The engine of the spec's scenario after its first successful load:
`load {port: 3000, host: "localhost"}` from `initState exSchema none none`. -/
def exObj : Obj := [("port", Value.vNum 3000), ("host", Value.vStr "localhost")]

/-- The spec scenario's invalid follow-up source:
`{port: "invalid", host: "localhost"}`. -/
def exBadObj : Obj := [("port", Value.vStr "invalid"), ("host", Value.vStr "localhost")]

/-- A reloaded source differing from `exObj` only in `host`. -/
def exReloadObj : Obj := [("port", Value.vNum 3000), ("host", Value.vStr "remotehost")]

/-- The engine of the spec's scenario after its first successful load of
`exObj` from `initState exSchema none none`. -/
def exLoaded : ZState :=
  (loadOp (initState exSchema none none) emptyWorld (.direct (.obj exObj))).1

/-- The engine `exLoaded` after registering listener `1` on `host` and listener `2` on
`port`. -/
def exListened : ZState :=
  (addListenerOp (addListenerOp exLoaded "host" 1).1 "port" 2).1

/-- A world whose `PORT` variable is the digit string `8080`. -/
def envWorld : World := { emptyWorld with env := [("PORT", "8080")] }

/-- A world whose `PORT` variable is mis-typed for `z.coerce.number()`. -/
def badEnvWorld : World := { emptyWorld with env := [("PORT", "abc")] }

/-- A single-field schema whose validator rejects numbers above ten. -/
def limitField : Field := { name := "limit", validate := numAtMost10, env := none }

/-- An engine over `limitField` after successfully loading `{limit: 5}`. -/
def limitLoaded : ZState :=
  (loadOp (initState [limitField] none none) emptyWorld
    (.direct (.obj [("limit", Value.vNum 5)]))).1

/-- A world holding the file `conf.json` whose decoded content is `exObj`. -/
def fileWorld : World :=
  { emptyWorld with
    files := [("conf.json", "A")]
    jsonDecode := fun _ => some exObj }

/-- The same world after the file on disk changed to mis-typed content. -/
def fileWorldBad : World :=
  { emptyWorld with
    files := [("conf.json", "A")]
    jsonDecode := fun _ => some exBadObj }

/-- An engine with a 100 ms reload interval after its first successful load
of `conf.json` from `fileWorld` (reload timer armed). -/
def fileLoaded : ZState :=
  (loadOp (initState exSchema none (some 100)) fileWorld (.direct (.path "conf.json"))).1

/-- A world holding both a JSON and a YAML file. -/
def twoFileWorld : World :=
  { emptyWorld with
    files := [("conf.json", "A"), ("conf.yaml", "B")]
    jsonDecode := fun _ => some exObj
    yamlDecode := fun _ => some exReloadObj }

/-- An engine after auto-selecting the JSON adapter by loading `conf.json`. -/
def jsonLoaded : ZState :=
  (loadOp (initState exSchema none none) twoFileWorld (.direct (.path "conf.json"))).1

/-! ## Association-list and suffix lemmas -/

theorem getKey_append (o₁ o₂ : Obj) (k : String) :
    getKey (o₁ ++ o₂) k =
      match getKey o₁ k with
      | some v => some v
      | none => getKey o₂ k := by
  induction o₁ with
  | nil => simp [getKey]
  | cons p rest ih =>
    obtain ⟨k', v⟩ := p
    by_cases h : k' = k <;> simp [getKey, h, ih]

/-- The spread-merge looks a key up in the overlay first and falls back to
the base: environment values take precedence per key. -/
theorem mergeObj_getKey (b o : Obj) (k : String) :
    getKey (mergeObj b o) k =
      match getKey o k with
      | some v => some v
      | none => getKey b k := by
  simpa [mergeObj] using getKey_append o b k

theorem suffix_eq_of_length {l₁ l₂ l : List Char}
    (h₁ : l₁ <:+ l) (h₂ : l₂ <:+ l) (h : l₁.length = l₂.length) : l₁ = l₂ := by
  obtain ⟨t₁, ht₁⟩ := h₁
  obtain ⟨t₂, ht₂⟩ := h₂
  have hl : t₁ ++ l₁ = t₂ ++ l₂ := ht₁.trans ht₂.symm
  have hlen : t₁.length = t₂.length := by
    have := congrArg List.length hl
    simp at this
    omega
  exact (List.append_inj hl hlen).2

theorem jsEndsWith_isSuffix {s pat : String} (h : jsEndsWith s pat = true) :
    pat.data <:+ s.data := by
  simpa [jsEndsWith] using h

/-- A path ending in `.json` does not end in `.yaml`, so the source's
second suffix check cannot overwrite the JSON selection. -/
theorem json_not_yaml {s : String} (h : jsEndsWith s ".json" = true) :
    jsEndsWith s ".yaml" = false := by
  rw [Bool.eq_false_iff]
  intro hy
  have h1 := jsEndsWith_isSuffix h
  have h2 := jsEndsWith_isSuffix hy
  have := suffix_eq_of_length h1 h2 (by decide)
  simp at this

/-- A path ending in `.json` does not end in `.yml` either. -/
theorem json_not_yml {s : String} (h : jsEndsWith s ".json" = true) :
    jsEndsWith s ".yml" = false := by
  rw [Bool.eq_false_iff]
  intro hy
  have h1 : ['j', 's', 'o', 'n'] <:+ s.data :=
    List.IsSuffix.trans (by decide) (jsEndsWith_isSuffix h)
  have h2 := jsEndsWith_isSuffix hy
  have := suffix_eq_of_length h2 h1 (by decide)
  simp at this

/-- A string with a non-empty suffix is itself non-empty (relevant because
the `objectOrFileRef` getter treats the empty string as falsy). -/
theorem jsEndsWith_ne_empty {s pat : String} (h : jsEndsWith s pat = true)
    (hp : pat.data ≠ []) : s ≠ "" := by
  intro he
  subst he
  have := jsEndsWith_isSuffix h
  rcases this with ⟨t, ht⟩
  have : t = [] ∧ pat.data = [] := by
    cases t <;> cases hpat : pat.data <;> simp_all
  exact hp this.2

/-! ## Frame lemmas: which state components each operation can touch -/

theorem setAdapterOp_state (st : ZState) (x : Option Adapter) :
    (setAdapterOp st x).1 = { st with adapter := (setAdapterOp st x).1.adapter } := by
  unfold setAdapterOp
  cases x <;> dsimp only <;> split <;> (try rfl) <;>
    (split <;> (try rfl) <;> (split <;> split <;> rfl))

theorem setAdapterOp_cc (st : ZState) (x : Option Adapter) :
    ((setAdapterOp st x).1).currentConfigValue = st.currentConfigValue := by
  rw [setAdapterOp_state]

theorem setAdapterOp_listeners (st : ZState) (x : Option Adapter) :
    ((setAdapterOp st x).1).listeners = st.listeners := by
  rw [setAdapterOp_state]

theorem setAdapterOp_schema (st : ZState) (x : Option Adapter) :
    ((setAdapterOp st x).1).schema = st.schema := by
  rw [setAdapterOp_state]

theorem setAdapterOp_ref (st : ZState) (x : Option Adapter) :
    ((setAdapterOp st x).1).objectOrFileRef = st.objectOrFileRef := by
  rw [setAdapterOp_state]

/-- Calling `setAdapter` with no argument never replaces an already-assigned
adapter (the `if (this._adapter) return;` guard). -/
theorem setAdapterOp_keeps_adapter (st : ZState) (a : Adapter)
    (h : st.adapter = some a) : ((setAdapterOp st none).1).adapter = some a := by
  unfold setAdapterOp
  simp [h]

theorem preLoadOp_cc (st : ZState) (w : World) (p : RefParam) :
    ((preLoadOp st w p).1).currentConfigValue = st.currentConfigValue := by
  unfold preLoadOp
  split
  · rfl
  · dsimp only
    split <;> simp [setAdapterOp_cc]

theorem preLoadOp_listeners (st : ZState) (w : World) (p : RefParam) :
    ((preLoadOp st w p).1).listeners = st.listeners := by
  unfold preLoadOp
  split
  · rfl
  · dsimp only
    split <;> simp [setAdapterOp_listeners]

theorem preLoadOp_schema (st : ZState) (w : World) (p : RefParam) :
    ((preLoadOp st w p).1).schema = st.schema := by
  unfold preLoadOp
  split
  · rfl
  · dsimp only
    split <;> simp [setAdapterOp_schema]

theorem preLoadOp_keeps_adapter (st : ZState) (w : World) (p : RefParam)
    (a : Adapter) (h : st.adapter = some a) :
    ((preLoadOp st w p).1).adapter = some a := by
  unfold preLoadOp
  split
  · exact h
  · dsimp only
    split <;> exact setAdapterOp_keeps_adapter _ a h

theorem startReloadIntervalOp_state (st : ZState) (ms : Option Nat) :
    (startReloadIntervalOp st ms).1 =
      { st with intervalActive := (startReloadIntervalOp st ms).1.intervalActive } := by
  unfold startReloadIntervalOp
  dsimp only
  split <;> (try rfl) <;> (split <;> rfl)

theorem postLoadOp_listeners (st : ZState) (envv raw : Obj) :
    ((postLoadOp st envv raw).1).listeners = st.listeners := by
  unfold postLoadOp
  split
  · rfl
  · dsimp only
    rw [startReloadIntervalOp_state]

theorem postLoadOp_schema (st : ZState) (envv raw : Obj) :
    ((postLoadOp st envv raw).1).schema = st.schema := by
  unfold postLoadOp
  split
  · rfl
  · dsimp only
    rw [startReloadIntervalOp_state]

theorem postLoadOp_adapter (st : ZState) (envv raw : Obj) :
    ((postLoadOp st envv raw).1).adapter = st.adapter := by
  unfold postLoadOp
  split
  · rfl
  · dsimp only
    rw [startReloadIntervalOp_state]

/-- A `postLoad` whose validation fails performs no state change at all. -/
theorem postLoadOp_error_state (st : ZState) (envv raw : Obj) (e : Err)
    (h : (postLoadOp st envv raw).2.1 = Except.error e) :
    (postLoadOp st envv raw).1 = st := by
  unfold postLoadOp at h ⊢
  split at h
  · rfl
  · simp at h

/-! ## Load decomposition and listener-dispatch lemmas -/


theorem preLoadOp_ok_env (st : ZState) (w : World) (p : RefParam) (envv : Obj)
    (h : (preLoadOp st w p).2.1 = Except.ok envv) :
    parseEnvValuesOp st w = Except.ok envv := by
  unfold preLoadOp at h
  split at h
  · simp at h
  · dsimp only at h
    split at h <;> simp_all

theorem loadOp_decomp (st : ZState) (w : World) (p : RefParam) :
    (∃ e, (loadOp st w p).2.1 = Except.error e ∧ (loadOp st w p).1 = (preLoadOp st w p).1) ∨
    (∃ envv raw,
       parseEnvValuesOp st w = Except.ok envv ∧
       (loadOp st w p).1 = (postLoadOp (preLoadOp st w p).1 envv raw).1 ∧
       (loadOp st w p).2.1 = (postLoadOp (preLoadOp st w p).1 envv raw).2.1) := by
  unfold loadOp
  dsimp only
  cases h1 : (preLoadOp st w p).2.1 with
  | error e => exact Or.inl ⟨e, by simp [h1], by simp [h1]⟩
  | ok envv =>
    cases h2 : (getAdapterR (preLoadOp st w p).1).1 with
    | error e => exact Or.inl ⟨e, by simp [h1, h2], by simp [h1, h2]⟩
    | ok a =>
      cases h3 : (getRefR (preLoadOp st w p).1).1 with
      | error e => exact Or.inl ⟨e, by simp [h1, h2, h3], by simp [h1, h2, h3]⟩
      | ok r =>
        cases h4 : (adapterLoad a w r).1 with
        | error e => exact Or.inl ⟨e, by simp [h1, h2, h3, h4], by simp [h1, h2, h3, h4]⟩
        | ok raw =>
          refine Or.inr ⟨envv, raw, preLoadOp_ok_env st w p envv h1, ?_, ?_⟩ <;>
            simp [h1, h2, h3, h4]



theorem loadOp_listeners (st : ZState) (w : World) (p : RefParam) :
    ((loadOp st w p).1).listeners = st.listeners := by
  rcases loadOp_decomp st w p with ⟨e, _, hs⟩ | ⟨envv, raw, _, hs, _⟩
  · rw [hs, preLoadOp_listeners]
  · rw [hs, postLoadOp_listeners, preLoadOp_listeners]

theorem loadOp_schema (st : ZState) (w : World) (p : RefParam) :
    ((loadOp st w p).1).schema = st.schema := by
  rcases loadOp_decomp st w p with ⟨e, _, hs⟩ | ⟨envv, raw, _, hs, _⟩
  · rw [hs, preLoadOp_schema]
  · rw [hs, postLoadOp_schema, preLoadOp_schema]

theorem loadOp_error_cc (st : ZState) (w : World) (p : RefParam) (e : Err)
    (h : (loadOp st w p).2.1 = Except.error e) :
    ((loadOp st w p).1).currentConfigValue = st.currentConfigValue := by
  rcases loadOp_decomp st w p with ⟨e', _, hs⟩ | ⟨envv, raw, _, hs, hres⟩
  · rw [hs, preLoadOp_cc]
  · rw [hres] at h
    rw [hs, postLoadOp_error_state _ _ _ e h, preLoadOp_cc]

theorem loadOp_keeps_adapter (st : ZState) (w : World) (p : RefParam)
    (a : Adapter) (h : st.adapter = some a) :
    ((loadOp st w p).1).adapter = some a := by
  rcases loadOp_decomp st w p with ⟨e, _, hs⟩ | ⟨envv, raw, _, hs, _⟩
  · rw [hs]
    exact preLoadOp_keeps_adapter st w p a h
  · rw [hs, postLoadOp_adapter]
    exact preLoadOp_keeps_adapter st w p a h

theorem loadOp_ok_decomp (st : ZState) (w : World) (p : RefParam)
    (calls : List ListenerCall) (h : (loadOp st w p).2.1 = Except.ok calls) :
    ∃ envv raw newv,
      parseEnvValuesOp st w = Except.ok envv ∧
      parseWithSchema st.schema (mergeObj raw envv) = some newv ∧
      ((loadOp st w p).1).currentConfigValue = some newv ∧
      calls = (runListenersOp
        { (preLoadOp st w p).1 with currentConfigValue := some newv }
        newv st.currentConfigValue).1 := by
  rcases loadOp_decomp st w p with ⟨e, hres, _⟩ | ⟨envv, raw, henv, hs, hres⟩
  · rw [hres] at h
    simp at h
  · rw [hres] at h
    -- dissect postLoadOp success
    unfold postLoadOp at h
    cases hp : parseWithSchema ((preLoadOp st w p).1).schema
        (mergeObj raw envv) with
    | none => rw [hp] at h; simp at h
    | some newv =>
      rw [hp] at h
      dsimp only at h
      rw [preLoadOp_schema] at hp
      refine ⟨envv, raw, newv, henv, hp, ?_, ?_⟩
      · rw [hs]
        unfold postLoadOp
        rw [preLoadOp_schema, hp]
        dsimp only
        rw [startReloadIntervalOp_state]
      · rw [preLoadOp_cc] at h
        exact Except.ok.inj h.symm



theorem mem_getChangedKeys (oldC newC : Obj) (k : String) :
    k ∈ getChangedKeys oldC newC ↔
      (k ∈ oldC.map Prod.fst ∧ getKey oldC k ≠ getKey newC k) := by
  simp [getChangedKeys]

theorem mem_listenersFor (st : ZState) (k : String) (q : String × Nat) :
    q ∈ listenersFor st k ↔ (q ∈ st.listeners ∧ q.1 = k) := by
  simp [listenersFor]

theorem mem_dispatch (st : ZState) (old newv : Obj) (k : String) (lid : Nat)
    (nv ov : Option Value) :
    (ListenerCall.mk k lid nv ov) ∈ (runListenersOp st newv (some old)).1 ↔
      ((k, lid) ∈ st.listeners ∧ k ∈ old.map Prod.fst ∧
       getKey old k ≠ getKey newv k ∧ nv = getKey newv k ∧ ov = getKey old k) := by
  unfold runListenersOp runListenerOp
  dsimp only
  rw [List.mem_flatMap]
  constructor
  · rintro ⟨k', hk', hmem⟩
    rw [List.mem_map] at hmem
    obtain ⟨⟨q1, q2⟩, hq, heq⟩ := hmem
    rw [mem_getChangedKeys] at hk'
    rw [mem_listenersFor] at hq
    obtain ⟨hql, hqk⟩ := hq
    injection heq with e1 e2 e3 e4
    subst e1
    subst e2
    subst e3
    subst e4
    dsimp only at hqk
    subst hqk
    exact ⟨hql, hk'.1, hk'.2, rfl, rfl⟩
  · rintro ⟨hl, hkmem, hne, hnv, hov⟩
    refine ⟨k, ?_, ?_⟩
    · rw [mem_getChangedKeys]
      exact ⟨hkmem, hne⟩
    · rw [List.mem_map]
      refine ⟨(k, lid), ?_, by simp [hnv, hov]⟩
      rw [mem_listenersFor]
      exact ⟨hl, rfl⟩

/-! ## Schema-validation lemmas -/


theorem parse_mem_getKey {schema : List Field} {o v : Obj}
    (h : parseWithSchema schema o = some v)
    (hnd : (schema.map Field.name).Nodup) {f : Field} (hf : f ∈ schema) :
    ∃ pv, f.validate (getKey o f.name) = some pv ∧ getKey v f.name = some pv := by
  induction schema generalizing v with
  | nil => cases hf
  | cons g rest ih =>
    rw [parseWithSchema] at h
    cases hv : g.validate (getKey o g.name) with
    | none => rw [hv] at h; simp at h
    | some gv =>
      rw [hv] at h
      cases hrest : parseWithSchema rest o with
      | none => rw [hrest] at h; simp at h
      | some restV =>
        rw [hrest] at h
        obtain rfl : (g.name, gv) :: restV = v := Option.some.inj h
        rw [List.map_cons, List.nodup_cons] at hnd
        rcases List.mem_cons.mp hf with rfl | hfr
        · exact ⟨gv, hv, by simp [getKey]⟩
        · obtain ⟨pv, hpv, hkey⟩ := ih hrest hnd.2 hfr
          have hne : g.name ≠ f.name := by
            intro hEq
            exact hnd.1 (hEq ▸ List.mem_map_of_mem Field.name hfr)
          exact ⟨pv, hpv, by rw [getKey, if_neg hne]; exact hkey⟩

theorem parse_congr {schema : List Field} {o₁ o₂ : Obj}
    (h : ∀ f ∈ schema, getKey o₁ f.name = getKey o₂ f.name) :
    parseWithSchema schema o₁ = parseWithSchema schema o₂ := by
  induction schema with
  | nil => rfl
  | cons g rest ih =>
    rw [parseWithSchema, parseWithSchema, h g (by simp),
      ih (fun f hf => h f (by simp [hf]))]

theorem parse_reparse {schema : List Field} {o v : Obj}
    (h : parseWithSchema schema o = some v)
    (hnd : (schema.map Field.name).Nodup)
    (hre : ∀ f ∈ schema, ∀ x pv, f.validate x = some pv → f.validate (some pv) = some pv) :
    parseWithSchema schema v = some v := by
  induction schema generalizing o v with
  | nil =>
    rw [parseWithSchema] at h ⊢
    exact h
  | cons g rest ih =>
    rw [parseWithSchema] at h
    cases hv : g.validate (getKey o g.name) with
    | none => rw [hv] at h; simp at h
    | some gv =>
      rw [hv] at h
      cases hrest : parseWithSchema rest o with
      | none => rw [hrest] at h; simp at h
      | some restV =>
        rw [hrest] at h
        obtain rfl : (g.name, gv) :: restV = v := Option.some.inj h
        rw [List.map_cons, List.nodup_cons] at hnd
        rw [parseWithSchema]
        have hgk : getKey ((g.name, gv) :: restV) g.name = some gv := by
          simp [getKey]
        rw [hgk, hre g (by simp) _ gv hv]
        have hcong2 : parseWithSchema rest ((g.name, gv) :: restV) =
            parseWithSchema rest restV := by
          apply parse_congr
          intro f hf
          have hne : g.name ≠ f.name := fun hEq =>
            hnd.1 (hEq ▸ List.mem_map_of_mem Field.name hf)
          rw [getKey, if_neg hne]
        rw [hcong2, ih hrest hnd.2 (fun f hf => hre f (by simp [hf]))]



theorem getEnvValues_getKey {schema : List Field} {env : List (String × String)}
    {f : Field} {ek s : String}
    (hnd : (schema.map Field.name).Nodup) (hf : f ∈ schema)
    (hek : f.env = some ek) (hek' : ek ≠ "")
    (hs : lookupStr env ek = some s) (hs' : s ≠ "") :
    getKey (getEnvValues schema env) f.name = some (Value.vStr s) := by
  induction schema with
  | nil => cases hf
  | cons g rest ih =>
    rw [List.map_cons, List.nodup_cons] at hnd
    rcases List.mem_cons.mp hf with rfl | hfr
    · rw [getEnvValues, hek]
      dsimp only
      rw [if_neg hek', hs]
      dsimp only
      rw [if_neg hs']
      simp [getKey]
    · have hne : g.name ≠ f.name := fun hEq =>
        hnd.1 (hEq ▸ List.mem_map_of_mem Field.name hfr)
      rw [getEnvValues]
      cases hg : g.env with
      | none => exact ih hnd.2 hfr
      | some gk =>
        dsimp only
        by_cases hgk : gk = ""
        · rw [if_pos hgk]
          exact ih hnd.2 hfr
        · rw [if_neg hgk]
          cases hlv : lookupStr env gk with
          | none => exact ih hnd.2 hfr
          | some gs =>
            dsimp only
            by_cases hgs : gs = ""
            · rw [if_pos hgs]
              exact ih hnd.2 hfr
            · rw [if_neg hgs, getKey, if_neg hne]
              exact ih hnd.2 hfr

theorem envParse_getKey {schema : List Field} {o envv : Obj} {f : Field}
    {ek : String} {x : Value}
    (h : parseEnvWithSchema schema o = some envv)
    (hnd : (schema.map Field.name).Nodup)
    (hf : f ∈ schema) (hek : f.env = some ek) (hek' : ek ≠ "")
    (hx : getKey o f.name = some x) :
    ∃ cv, f.validate (some x) = some cv ∧ getKey envv f.name = some cv := by
  induction schema generalizing envv with
  | nil => cases hf
  | cons g rest ih =>
    rw [List.map_cons, List.nodup_cons] at hnd
    rw [parseEnvWithSchema] at h
    rcases List.mem_cons.mp hf with rfl | hfr
    · have hb : envBound f = true := by simp [envBound, hek, hek']
      rw [if_pos hb, hx] at h
      dsimp only at h
      cases hv : f.validate (some x) with
      | none => rw [hv] at h; simp at h
      | some cv =>
        rw [hv] at h
        cases hrest : parseEnvWithSchema rest o with
        | none => rw [hrest] at h; simp at h
        | some restE =>
          rw [hrest] at h
          obtain rfl : (f.name, cv) :: restE = envv := Option.some.inj h
          exact ⟨cv, rfl, by simp [getKey]⟩
    · have hne : g.name ≠ f.name := fun hEq =>
        hnd.1 (hEq ▸ List.mem_map_of_mem Field.name hfr)
      by_cases hb : envBound g = true
      · rw [if_pos hb] at h
        cases hgk : getKey o g.name with
        | none =>
          rw [hgk] at h
          dsimp only at h
          exact ih h hnd.2 hfr
        | some gv =>
          rw [hgk] at h
          dsimp only at h
          cases hgv : g.validate (some gv) with
          | none => rw [hgv] at h; simp at h
          | some pv =>
            rw [hgv] at h
            cases hrest : parseEnvWithSchema rest o with
            | none => rw [hrest] at h; simp at h
            | some restE =>
              rw [hrest] at h
              obtain rfl : (g.name, pv) :: restE = envv := Option.some.inj h
              obtain ⟨cv, hcv, hkey⟩ := ih hrest hnd.2 hfr
              exact ⟨cv, hcv, by rw [getKey, if_neg hne]; exact hkey⟩
      · rw [if_neg hb] at h
        exact ih h hnd.2 hfr

/-! ## Validator and logging auxiliaries -/


theorem coerceNumber_reacc (x : Option Value) (v : Value)
    (h : coerceNumber x = some v) : coerceNumber (some v) = some v := by
  rcases x with _ | val
  · simp [coerceNumber] at h
  · rcases val with _ | b | n | s
    · simp [coerceNumber] at h
    · rw [coerceNumber] at h
      obtain rfl := Option.some.inj h
      rfl
    · rw [coerceNumber] at h
      obtain rfl := Option.some.inj h
      rfl
    · rw [coerceNumber] at h
      cases hm : strToNat? s with
      | none => rw [hm] at h; simp at h
      | some n =>
        rw [hm] at h
        obtain rfl := Option.some.inj (by simpa using h)
        rfl

theorem strOnly_reacc (x : Option Value) (v : Value)
    (h : strOnly x = some v) : strOnly (some v) = some v := by
  rcases x with _ | val
  · simp [strOnly] at h
  · rcases val with _ | b | n | s
    · simp [strOnly] at h
    · simp [strOnly] at h
    · simp [strOnly] at h
    · rw [strOnly] at h
      obtain rfl := Option.some.inj h
      rfl

theorem exSchema_reacc :
    ∀ f ∈ exSchema, ∀ x pv, f.validate x = some pv → f.validate (some pv) = some pv := by
  intro f hf
  rcases List.mem_cons.mp hf with rfl | hf2
  · exact fun x pv => coerceNumber_reacc x pv
  · rcases List.mem_cons.mp hf2 with rfl | hf3
    · exact fun x pv => strOnly_reacc x pv
    · cases hf3



theorem getRefR_no_reload (st : ZState) : LogEvt.reload ∉ (getRefR st).2 := by
  unfold getRefR
  split
  · simp
  · split <;> simp

theorem getAdapterR_no_reload (st : ZState) : LogEvt.reload ∉ (getAdapterR st).2 := by
  unfold getAdapterR
  split <;> simp

theorem adapterLoad_no_reload (a : Adapter) (w : World) (r : Ref) :
    LogEvt.reload ∉ (adapterLoad a w r).2 := by
  unfold adapterLoad
  split <;> (try simp) <;> (split <;> (try simp) <;> (split <;> simp))

theorem setAdapterOp_no_reload (st : ZState) (x : Option Adapter) :
    LogEvt.reload ∉ (setAdapterOp st x).2.2 := by
  unfold setAdapterOp
  cases x <;> dsimp only <;> split <;>
    (try simp [getRefR_no_reload]) <;>
    (split <;> (try simp [getRefR_no_reload]) <;>
      (split <;> split <;> simp [getRefR_no_reload, List.mem_append]))

theorem preLoadOp_no_reload (st : ZState) (w : World) (p : RefParam) :
    LogEvt.reload ∉ (preLoadOp st w p).2.2 := by
  unfold preLoadOp
  split
  · simp
  · dsimp only
    split <;> exact setAdapterOp_no_reload _ none

theorem startReloadIntervalOp_no_reload (st : ZState) (ms : Option Nat) :
    LogEvt.reload ∉ (startReloadIntervalOp st ms).2 := by
  unfold startReloadIntervalOp
  dsimp only
  split <;> (try simp) <;> (split <;> simp)

theorem postLoadOp_no_reload (st : ZState) (envv raw : Obj) :
    LogEvt.reload ∉ (postLoadOp st envv raw).2.2 := by
  unfold postLoadOp
  split
  · simp
  · dsimp only
    intro hmem
    rcases List.mem_append.mp hmem with hmem | hmem
    · rcases List.mem_append.mp hmem with hmem | hmem
      · unfold runListenersOp at hmem
        rcases hcc : st.currentConfigValue with _ | old <;> rw [hcc] at hmem
        · simp at hmem
        · simp [List.mem_replicate] at hmem
      · exact startReloadIntervalOp_no_reload _ none hmem
    · simp at hmem

theorem loadOp_no_reload (st : ZState) (w : World) (p : RefParam) :
    LogEvt.reload ∉ (loadOp st w p).2.2 := by
  unfold loadOp
  dsimp only
  cases h1 : (preLoadOp st w p).2.1 <;> simp only [h1]
  · exact preLoadOp_no_reload st w p
  · cases h2 : (getAdapterR (preLoadOp st w p).1).1 <;> simp only [h2]
    · simp [List.mem_append, preLoadOp_no_reload, getAdapterR_no_reload]
    · cases h3 : (getRefR (preLoadOp st w p).1).1 <;> simp only [h3]
      · simp [List.mem_append, preLoadOp_no_reload, getAdapterR_no_reload, getRefR_no_reload]
      · cases h4 : (adapterLoad _ w _).1 <;> simp only [h4]
        · simp [List.mem_append, preLoadOp_no_reload, getAdapterR_no_reload,
            getRefR_no_reload, adapterLoad_no_reload]
        · simp [List.mem_append, preLoadOp_no_reload, getAdapterR_no_reload,
            getRefR_no_reload, adapterLoad_no_reload, postLoadOp_no_reload]

/-! ## Claim theorems -/


/-- C1: a `load`/`loadSync` (and hence a reload tick, which goes through the
same load path) whose execution fails — in particular a merged-configuration
validation failure — leaves the current snapshot unchanged, so every later
`get` returns the prior validated values, and the failure is the call's
result rather than being absorbed. -/
theorem load_failed_keeps_snapshot (st : ZState) (w : World) (p : RefParam)
    (e : Err) (h : (loadOp st w p).2.1 = Except.error e) :
    ((loadOp st w p).1).currentConfigValue = st.currentConfigValue ∧
    (∀ k, (getOp (loadOp st w p).1 k).1 = (getOp st k).1) := by
  have hcc := loadOp_error_cc st w p e h
  refine ⟨hcc, fun k => ?_⟩
  unfold getOp
  rw [hcc]

/-- Witness for C1, the spec's own scenario: after loading
`{port: 3000, host: "localhost"}`, loading `{port: "invalid", ...}` fails
with the validation condition and `get('port')` still returns `3000`. -/
theorem load_failed_keeps_snapshot_witness :
    (loadOp exLoaded emptyWorld (.direct (.obj exBadObj))).2.1 =
      Except.error Err.validationFailure ∧
    (getOp (loadOp exLoaded emptyWorld (.direct (.obj exBadObj))).1 "port").1 =
      Except.ok (some (Value.vNum 3000)) := by
  refine ⟨by decide, ?_⟩
  rw [(load_failed_keeps_snapshot exLoaded emptyWorld (.direct (.obj exBadObj))
    Err.validationFailure (by decide)).2 "port"]
  decide

/-- C9: on an engine without a snapshot (no successful load yet), `get` and
`set` both fail with the `NotLoaded` condition, `set` changes nothing, and
the engine still has no snapshot. -/
theorem get_set_require_loaded (st : ZState) (k : String) (v : Value)
    (h : st.currentConfigValue = none) :
    (getOp st k).1 = Except.error Err.notLoaded ∧
    (setOp st k v).1 = st ∧
    (setOp st k v).2.1 = Except.error Err.notLoaded := by
  unfold getOp setOp
  rw [h]
  exact ⟨rfl, rfl, rfl⟩

/-- Witness for C9 at the freshly constructed test engine. -/
theorem get_set_require_loaded_witness :
    (getOp (initState exSchema none none) "port").1 = Except.error Err.notLoaded ∧
    (setOp (initState exSchema none none) "port" (Value.vNum 1)).1 =
      initState exSchema none none ∧
    (setOp (initState exSchema none none) "port" (Value.vNum 1)).2.1 =
      Except.error Err.notLoaded :=
  get_set_require_loaded (initState exSchema none none) "port" (Value.vNum 1) rfl

/-- C5: on a loaded engine, `set(field, value)` dispatches exactly the
listeners registered for that field — one call per registration, in
registration order, with `(newValue, oldValue)` as arguments, with no
equality gate — and no listener registered on another field is invoked. -/
theorem set_dispatches_all_listeners (st : ZState) (cur : Obj) (k : String)
    (v : Value) (h : st.currentConfigValue = some cur) :
    (setOp st k v).2.1 = Except.ok ((listenersFor st k).map
      (fun q => ListenerCall.mk k q.2 (some v) (getKey cur k))) ∧
    (∀ k' lid nv ov, k' ≠ k →
      ListenerCall.mk k' lid nv ov ∉ ((listenersFor st k).map
        (fun q => ListenerCall.mk k q.2 (some v) (getKey cur k)))) := by
  constructor
  · unfold setOp
    rw [h]
    rfl
  · intro k' lid nv ov hne hmem
    rw [List.mem_map] at hmem
    obtain ⟨q, _, heq⟩ := hmem
    exact hne (congrArg ListenerCall.key heq).symm

/-- Witness for C5: setting `host` to its current value still dispatches the
`host` listener once with `(new, old)`, and the `port` listener is not
invoked. -/
theorem set_dispatches_all_listeners_witness :
    (setOp exListened "host" (Value.vStr "localhost")).2.1 = Except.ok
      [ListenerCall.mk "host" 1 (some (Value.vStr "localhost"))
        (some (Value.vStr "localhost"))] ∧
    (∀ nv ov, ListenerCall.mk "port" 2 nv ov ∉
      [ListenerCall.mk "host" 1 (some (Value.vStr "localhost"))
        (some (Value.vStr "localhost"))]) := by
  have h := set_dispatches_all_listeners exListened exObj "host"
    (Value.vStr "localhost") (by decide)
  have hlist : (listenersFor exListened "host").map
      (fun q => ListenerCall.mk "host" q.2 (some (Value.vStr "localhost"))
        (getKey exObj "host")) =
      [ListenerCall.mk "host" 1 (some (Value.vStr "localhost"))
        (some (Value.vStr "localhost"))] := by decide
  constructor
  · rw [h.1, hlist]
  · intro nv ov
    rw [← hlist]
    exact h.2 "port" 2 nv ov (by decide)



/-- C4: when a load over an existing snapshot succeeds, a listener is
invoked on this call if and only if it is registered on a field whose new
validated value differs structurally from its value in the prior snapshot,
and it receives exactly the new and old field values; listeners of
unchanged fields are not invoked. -/
theorem reload_dispatch_iff_changed (st : ZState) (w : World) (p : RefParam)
    (old : Obj) (calls : List ListenerCall)
    (hold : st.currentConfigValue = some old)
    (hok : (loadOp st w p).2.1 = Except.ok calls) :
    ∃ newv, ((loadOp st w p).1).currentConfigValue = some newv ∧
      ∀ k lid nv ov, (ListenerCall.mk k lid nv ov) ∈ calls ↔
        ((k, lid) ∈ st.listeners ∧ k ∈ old.map Prod.fst ∧
         getKey old k ≠ getKey newv k ∧ nv = getKey newv k ∧ ov = getKey old k) := by
  obtain ⟨envv, raw, newv, henv, hparse, hcc, hcalls⟩ := loadOp_ok_decomp st w p calls hok
  refine ⟨newv, hcc, fun k lid nv ov => ?_⟩
  rw [hcalls, hold, mem_dispatch]
  have hl : ({ (preLoadOp st w p).1 with currentConfigValue := some newv } : ZState).listeners
      = st.listeners := preLoadOp_listeners st w p
  rw [hl]

/-- Witness for C4: reloading a source where only `host` changed invokes the
`host` listener with `(new, old)` and does not invoke the `port` listener. -/
theorem reload_dispatch_iff_changed_witness :
    ∃ newv, ((loadOp exListened emptyWorld (.direct (.obj exReloadObj))).1).currentConfigValue = some newv ∧
      ∀ k lid nv ov, (ListenerCall.mk k lid nv ov) ∈
          [ListenerCall.mk "host" 1 (some (Value.vStr "remotehost"))
            (some (Value.vStr "localhost"))] ↔
        ((k, lid) ∈ exListened.listeners ∧ k ∈ exObj.map Prod.fst ∧
         getKey exObj k ≠ getKey newv k ∧ nv = getKey newv k ∧ ov = getKey exObj k) :=
  reload_dispatch_iff_changed exListened emptyWorld (.direct (.obj exReloadObj))
    exObj
    [ListenerCall.mk "host" 1 (some (Value.vStr "remotehost"))
      (some (Value.vStr "localhost"))]
    (by decide) (by decide)



/-- Counterexample to C2: an engine whose field validator is
`z.number().max(10)`-like loads `{limit: 5}` (snapshot satisfies the
combined validator), then `set('limit', 20)` succeeds — the value is stored
without re-running the validator — and the resulting snapshot no longer
satisfies the combined validator. -/
theorem set_breaks_validator_invariant :
    limitLoaded.currentConfigValue = some [("limit", Value.vNum 5)] ∧
    satisfiesSchema [limitField] [("limit", Value.vNum 5)] = true ∧
    (setOp limitLoaded "limit" (Value.vNum 20)).2.1 = Except.ok [] ∧
    ((setOp limitLoaded "limit" (Value.vNum 20)).1).currentConfigValue =
      some [("limit", Value.vNum 20)] ∧
    satisfiesSchema [limitField] [("limit", Value.vNum 20)] = false := by
  refine ⟨by decide, by decide, by decide, by decide, by decide⟩

/-- C2 amended: after every successful load the snapshot satisfies the
compiled combined validator (for schemas with distinct field names whose
validators accept their own outputs), while `set` stores the given value
verbatim without re-running the field's validator — so `set` preserves the
invariant only when the written value itself passes validation. -/
theorem snapshot_satisfies_schema_after_load (st : ZState) (w : World)
    (p : RefParam) (calls : List ListenerCall)
    (hnd : (st.schema.map Field.name).Nodup)
    (hre : ∀ f ∈ st.schema, ∀ x pv, f.validate x = some pv →
      f.validate (some pv) = some pv)
    (hok : (loadOp st w p).2.1 = Except.ok calls) :
    (∃ newv, ((loadOp st w p).1).currentConfigValue = some newv ∧
      satisfiesSchema st.schema newv = true) ∧
    (∀ cur k v, st.currentConfigValue = some cur →
      ((setOp st k v).1).currentConfigValue = some (setKey cur k v)) := by
  constructor
  · obtain ⟨envv, raw, newv, henv, hparse, hcc, _⟩ :=
      loadOp_ok_decomp st w p calls hok
    refine ⟨newv, hcc, ?_⟩
    unfold satisfiesSchema
    rw [parse_reparse hparse hnd hre]
    rfl
  · intro cur k v hcur
    unfold setOp
    rw [hcur]

/-- Witness for the amended C2 at the test schema. -/
theorem snapshot_satisfies_schema_after_load_witness :
    (∃ newv, ((loadOp exLoaded emptyWorld (.direct (.obj exReloadObj))).1).currentConfigValue = some newv ∧
      satisfiesSchema exLoaded.schema newv = true) ∧
    (∀ cur k v, exLoaded.currentConfigValue = some cur →
      ((setOp exLoaded k v).1).currentConfigValue = some (setKey cur k v)) :=
  snapshot_satisfies_schema_after_load exLoaded emptyWorld
    (.direct (.obj exReloadObj)) [] (by decide) exSchema_reacc (by decide)

/-- Counterexample to C6: a reload tick whose merged configuration fails
validation produces no log entry at all (in particular none at error
severity) — the failure escapes the interval callback as the call's error —
while the snapshot is indeed preserved. -/
theorem reload_tick_validation_failure_unlogged :
    (reloadTickOp fileLoaded fileWorldBad).2.1 = Except.error Err.validationFailure ∧
    (reloadTickOp fileLoaded fileWorldBad).2.2 = [] ∧
    ((reloadTickOp fileLoaded fileWorldBad).1).currentConfigValue =
      some [("port", Value.vNum 3000), ("host", Value.vStr "localhost")] := by
  refine ⟨by decide, by decide, by decide⟩

/-- C6 amended: a failing reload tick never replaces or destroys the last
validated snapshot, and the tick's reload-success log line is never reached
— the failure escapes the uncaught interval callback as the tick's error
result (read/parse failures have logged at error severity inside the
adapter; a validation failure logs nothing). -/
theorem reload_tick_failure_preserves_snapshot (st : ZState) (w : World)
    (e : Err) (h : (reloadTickOp st w).2.1 = Except.error e) :
    ((reloadTickOp st w).1).currentConfigValue = st.currentConfigValue ∧
    LogEvt.reload ∉ (reloadTickOp st w).2.2 := by
  unfold reloadTickOp at h ⊢
  dsimp only at h ⊢
  by_cases hl : st.loadMethodSet = true
  · rw [if_pos hl] at h ⊢
    cases h3 : (getRefR st).1 with
    | error e' =>
      simp only [h3] at h ⊢
      exact ⟨trivial, getRefR_no_reload st⟩
    | ok r =>
      simp only [h3] at h ⊢
      cases h4 : (loadOp st w (.direct r)).2.1 with
      | error e' =>
        simp only [h4] at h ⊢
        refine ⟨loadOp_error_cc st w _ e' h4, ?_⟩
        intro hmem
        rcases List.mem_append.mp hmem with hm | hm
        · exact getRefR_no_reload st hm
        · exact loadOp_no_reload st w _ hm
      | ok calls =>
        simp only [h4] at h
        simp at h
  · rw [if_neg hl] at h ⊢
    exact ⟨rfl, by simp⟩

/-- Witness for the amended C6 at the concrete failing tick. -/
theorem reload_tick_failure_preserves_snapshot_witness :
    ((reloadTickOp fileLoaded fileWorldBad).1).currentConfigValue =
      fileLoaded.currentConfigValue ∧
    LogEvt.reload ∉ (reloadTickOp fileLoaded fileWorldBad).2.2 :=
  reload_tick_failure_preserves_snapshot fileLoaded fileWorldBad
    Err.validationFailure (by decide)



theorem loadOp_adapter_eq_pre (st : ZState) (w : World) (p : RefParam) :
    ((loadOp st w p).1).adapter = ((preLoadOp st w p).1).adapter := by
  rcases loadOp_decomp st w p with ⟨e, _, hs⟩ | ⟨envv, raw, _, hs, _⟩
  · rw [hs]
  · rw [hs, postLoadOp_adapter]

theorem preLoadOp_state_eq (st : ZState) (w : World) (p : RefParam) (envv : Obj)
    (henv : parseEnvValuesOp st w = Except.ok envv) :
    (preLoadOp st w p).1 =
      (setAdapterOp { st with objectOrFileRef := some (resolveRef p envv)
                              loadMethodSet := true } none).1 := by
  unfold preLoadOp
  rw [henv]
  dsimp only
  split <;> rfl

theorem setAdapterOp_ok_of_ref (st : ZState) (r : Ref)
    (href : st.objectOrFileRef = some r) (hr : r ≠ Ref.path "") :
    (setAdapterOp st none).2.1 = Except.ok () := by
  unfold setAdapterOp
  dsimp only
  split
  · rfl
  · have hg : (getRefR st).1 = Except.ok r := by
      unfold getRefR
      rw [href]
      dsimp only
      rw [if_neg hr]
    rw [hg]
    cases r with
    | obj o => rfl
    | path s => rfl

theorem preLoadOp_result_eq (st : ZState) (w : World) (p : RefParam) (envv : Obj)
    (henv : parseEnvValuesOp st w = Except.ok envv)
    (hok : (setAdapterOp { st with objectOrFileRef := some (resolveRef p envv)
                                   loadMethodSet := true } none).2.1 = Except.ok ()) :
    (preLoadOp st w p).2.1 = Except.ok envv := by
  unfold preLoadOp
  rw [henv]
  dsimp only
  rw [hok]

theorem setAdapterOp_auto (st : ZState) (r : Ref) (ha : st.adapter = none)
    (href : st.objectOrFileRef = some r) (hr : r ≠ Ref.path "") :
    ((setAdapterOp st none).1).adapter = autoSelectRef r := by
  unfold autoSelectRef
  unfold setAdapterOp
  dsimp only
  rw [if_neg (show ¬ (st.adapter.isSome = true) from by rw [ha]; simp)]
  have hg : (getRefR st).1 = Except.ok r := by
    unfold getRefR
    rw [href]
    dsimp only
    rw [if_neg hr]
  rw [hg]
  cases r with
  | obj o => rfl
  | path s =>
    dsimp only
    by_cases hy : (jsEndsWith s ".yaml" || jsEndsWith s ".yml") = true
    · rw [if_pos hy, if_pos hy]
    · rw [if_neg hy, if_neg hy]
      by_cases hj : jsEndsWith s ".json" = true
      · rw [if_pos hj, if_pos hj]
      · rw [if_neg hj, if_neg hj]
        exact ha

theorem loadOp_adapterNotSet (st : ZState) (w : World) (p : RefParam) (envv : Obj)
    (henv : (preLoadOp st w p).2.1 = Except.ok envv)
    (ha : ((preLoadOp st w p).1).adapter = none) :
    (loadOp st w p).2.1 = Except.error Err.adapterNotSet := by
  unfold loadOp
  dsimp only
  rw [henv]
  dsimp only
  have hga : (getAdapterR (preLoadOp st w p).1).1 = Except.error Err.adapterNotSet := by
    unfold getAdapterR
    rw [ha]
  rw [hga]



/-- A `setAdapter()` call that throws (the falsy-reference getter) performs
no state change. -/
theorem setAdapterOp_error_stays (st : ZState) (e : Err)
    (h : (setAdapterOp st none).2.1 = Except.error e) :
    (setAdapterOp st none).1 = st := by
  unfold setAdapterOp at h ⊢
  dsimp only at h ⊢
  by_cases hs : st.adapter.isSome = true
  · rw [if_pos hs] at h
    simp at h
  · rw [if_neg hs] at h ⊢
    cases hg : (getRefR st).1 with
    | error e' =>
      simp only [hg] at h ⊢
    | ok r =>
      simp only [hg] at h
      cases r with
      | obj o => simp at h
      | path s => simp at h

/-- Counterexample to C7 as stated: the empty string is a path with none of
the recognised suffixes, yet loading it does not fail with the
adapter-not-set condition — the falsy `objectOrFileRef` getter throws
`NotLoadedError` before any suffix is examined (the adapter stays unset). -/
theorem empty_path_load_fails_not_loaded :
    jsEndsWith "" ".json" = false ∧
    jsEndsWith "" ".yaml" = false ∧
    jsEndsWith "" ".yml" = false ∧
    (loadOp (initState exSchema none none) emptyWorld
        (.direct (.path ""))).2.1 = Except.error Err.notLoaded ∧
    (loadOp (initState exSchema none none) emptyWorld
        (.direct (.path ""))).2.1 ≠ Except.error Err.adapterNotSet ∧
    ((loadOp (initState exSchema none none) emptyWorld
        (.direct (.path ""))).1).adapter = none := by
  refine ⟨by decide, by decide, by decide, by decide, by decide, by decide⟩

/-- C7 as amended: with no explicitly assigned adapter, a load auto-selects
from the source reference — `.json` paths select the JSON adapter,
`.yaml`/`.yml` paths the YAML adapter, object references the Object adapter,
and a non-empty path with no recognised suffix leaves no adapter selected so
the load fails with the adapter-not-set condition; the empty path is falsy
for the stored-reference getter, so there the load still selects no adapter
but fails with the not-loaded condition before any suffix is examined; an
already-assigned adapter is never overridden by auto-selection. -/
theorem adapter_autoselection_policy (st : ZState) (w : World) (r : Ref)
    (envv : Obj) (henv : parseEnvValuesOp st w = Except.ok envv) :
    (st.adapter = none →
      ((∀ s, r = Ref.path s → jsEndsWith s ".json" = true →
          ((loadOp st w (.direct r)).1).adapter = some Adapter.jsonA) ∧
       (∀ s, r = Ref.path s →
          (jsEndsWith s ".yaml" = true ∨ jsEndsWith s ".yml" = true) →
          ((loadOp st w (.direct r)).1).adapter = some Adapter.yamlA) ∧
       (∀ o, r = Ref.obj o →
          ((loadOp st w (.direct r)).1).adapter = some Adapter.objectA) ∧
       (∀ s, r = Ref.path s → s ≠ "" →
          jsEndsWith s ".json" = false → jsEndsWith s ".yaml" = false →
          jsEndsWith s ".yml" = false →
          ((loadOp st w (.direct r)).1).adapter = none ∧
          (loadOp st w (.direct r)).2.1 = Except.error Err.adapterNotSet) ∧
       (r = Ref.path "" →
          ((loadOp st w (.direct r)).1).adapter = none ∧
          (loadOp st w (.direct r)).2.1 = Except.error Err.notLoaded))) ∧
    (∀ a, st.adapter = some a →
      ((loadOp st w (.direct r)).1).adapter = some a) := by
  have hstate := preLoadOp_state_eq st w (RefParam.direct r) envv henv
  rw [show resolveRef (RefParam.direct r) envv = r from rfl] at hstate
  have hload := loadOp_adapter_eq_pre st w (RefParam.direct r)
  constructor
  · intro ha
    have hauto : ∀ _ : r ≠ Ref.path "",
        ((loadOp st w (.direct r)).1).adapter = autoSelectRef r := by
      intro hr
      rw [hload, hstate]
      exact setAdapterOp_auto
        { st with objectOrFileRef := some r, loadMethodSet := true }
        r ha rfl hr
    refine ⟨?_, ?_, ?_, ?_, ?_⟩
    · rintro s rfl hjson
      have hr : Ref.path s ≠ Ref.path "" := by
        intro hEq
        exact jsEndsWith_ne_empty hjson (by decide) (Ref.path.inj hEq)
      rw [hauto hr]
      unfold autoSelectRef
      dsimp only
      rw [if_neg (by rw [json_not_yaml hjson, json_not_yml hjson]; simp),
        if_pos hjson]
    · rintro s rfl hyy
      have hne : s ≠ "" := by
        rcases hyy with hy | hy <;> exact jsEndsWith_ne_empty hy (by decide)
      have hr : Ref.path s ≠ Ref.path "" := fun hEq => hne (Ref.path.inj hEq)
      rw [hauto hr]
      unfold autoSelectRef
      dsimp only
      rw [if_pos (by rcases hyy with hy | hy <;> simp [hy])]
    · rintro o rfl
      rw [hauto (by simp)]
      rfl
    · rintro s rfl hne hj hya hyl
      have hr : Ref.path s ≠ Ref.path "" := fun hEq => hne (Ref.path.inj hEq)
      constructor
      · rw [hauto hr]
        unfold autoSelectRef
        dsimp only
        rw [if_neg (by rw [hya, hyl]; simp), if_neg (by rw [hj]; simp)]
      · have hpre : (preLoadOp st w (RefParam.direct (Ref.path s))).2.1 =
            Except.ok envv := by
          apply preLoadOp_result_eq st w (RefParam.direct (Ref.path s)) envv henv
          exact setAdapterOp_ok_of_ref _ (Ref.path s) rfl hr
        apply loadOp_adapterNotSet st w (RefParam.direct (Ref.path s)) envv hpre
        rw [hstate]
        rw [setAdapterOp_auto
          { st with objectOrFileRef := some (Ref.path s), loadMethodSet := true }
          (Ref.path s) ha rfl hr]
        unfold autoSelectRef
        dsimp only
        rw [if_neg (by rw [hya, hyl]; simp), if_neg (by rw [hj]; simp)]
    · rintro rfl
      have hsa : (setAdapterOp { st with objectOrFileRef := some (Ref.path "")
                                         loadMethodSet := true } none).2.1 =
          Except.error Err.notLoaded := by
        unfold setAdapterOp
        dsimp only
        rw [if_neg (show ¬ (st.adapter.isSome = true) from by rw [ha]; simp)]
        have hg : (getRefR { st with objectOrFileRef := some (Ref.path "")
                                     loadMethodSet := true }).1 =
            Except.error Err.notLoaded := by
          unfold getRefR
          dsimp only
          rw [if_pos rfl]
        rw [hg]
      have hpre2 : (preLoadOp st w (RefParam.direct (Ref.path ""))).2.1 =
          Except.error Err.notLoaded := by
        unfold preLoadOp
        rw [henv]
        dsimp only [resolveRef]
        rw [hsa]
      refine ⟨?_, ?_⟩
      · rw [hload, hstate, setAdapterOp_error_stays _ Err.notLoaded hsa]
        exact ha
      · unfold loadOp
        dsimp only
        rw [hpre2]
  · intro a ha
    exact loadOp_keeps_adapter st w (RefParam.direct r) a ha



/-- Witness for the amended C7: loading `conf.json` on a fresh engine
selects the JSON adapter; loading `conf.txt` fails with the adapter-not-set
condition; loading the empty path fails with the not-loaded condition. -/
theorem adapter_autoselection_policy_witness :
    ((loadOp (initState exSchema none none) twoFileWorld
        (.direct (.path "conf.json"))).1).adapter = some Adapter.jsonA ∧
    (loadOp (initState exSchema none none) emptyWorld
        (.direct (.path "conf.txt"))).2.1 = Except.error Err.adapterNotSet ∧
    (loadOp (initState exSchema none none) emptyWorld
        (.direct (.path ""))).2.1 = Except.error Err.notLoaded := by
  refine ⟨?_, ?_, ?_⟩
  · exact ((adapter_autoselection_policy (initState exSchema none none)
      twoFileWorld (.path "conf.json") [] (by decide)).1 rfl).1
      "conf.json" rfl (by decide)
  · exact ((((adapter_autoselection_policy (initState exSchema none none)
      emptyWorld (.path "conf.txt") [] (by decide)).1 rfl).2.2.2.1
      "conf.txt" rfl (by decide) (by decide) (by decide) (by decide))).2
  · exact (((adapter_autoselection_policy (initState exSchema none none)
      emptyWorld (.path "") [] (by decide)).1 rfl).2.2.2.2 rfl).2

/-- C8: when the environment overlay built from the bound variables fails
the environment overlay validator, the whole load fails immediately with
the same `validationFailure` condition a mis-typed file value produces,
before the adapter is consulted: the state is untouched, nothing is logged,
and the outcome is independent of the world's files, decoders and adapters. -/
theorem env_overlay_validated_first (st : ZState) (w : World) (p : RefParam)
    (h : parseEnvWithSchema st.schema (getEnvValues st.schema w.env) = none) :
    loadOp st w p = (st, Except.error Err.validationFailure, []) ∧
    (∀ w' : World, w'.env = w.env →
      loadOp st w' p = (st, Except.error Err.validationFailure, [])) ∧
    (∀ st₂ : ZState, ∀ envv raw : Obj,
      parseWithSchema st₂.schema (mergeObj raw envv) = none →
      (postLoadOp st₂ envv raw).2.1 = Except.error Err.validationFailure) := by
  have key : ∀ w' : World, w'.env = w.env →
      loadOp st w' p = (st, Except.error Err.validationFailure, []) := by
    intro w' hw
    have henv : parseEnvValuesOp st w' = Except.error Err.validationFailure := by
      unfold parseEnvValuesOp
      rw [hw, h]
    have hpre : preLoadOp st w' p = (st, Except.error Err.validationFailure, []) := by
      unfold preLoadOp
      rw [henv]
    unfold loadOp
    rw [hpre]
  refine ⟨key w rfl, key, fun st₂ envv raw hm => ?_⟩
  unfold postLoadOp
  rw [hm]

/-- Witness for C8: `PORT=abc` fails coercion, so the load fails with the
validation condition without touching the engine. -/
theorem env_overlay_validated_first_witness :
    loadOp (initState exSchema none none) badEnvWorld (.direct (.obj exObj)) =
      (initState exSchema none none, Except.error Err.validationFailure, []) :=
  (env_overlay_validated_first (initState exSchema none none) badEnvWorld
    (.direct (.obj exObj)) (by decide)).1



/-- C3: in every successful load, a field whose environment binding is set
to a truthy value ends up with the environment-derived coerced value,
regardless of what the source mapping supplied for it: the merge is
`{ ...raw, ...environmentOverlay }` with the overlay taking precedence. -/
theorem env_overrides_source_value (st : ZState) (w : World) (p : RefParam)
    (calls : List ListenerCall) (f : Field) (ek s : String)
    (hnd : (st.schema.map Field.name).Nodup)
    (hf : f ∈ st.schema) (hek : f.env = some ek) (hek' : ek ≠ "")
    (hvar : lookupStr w.env ek = some s) (hs : s ≠ "")
    (hre : ∀ x pv, f.validate x = some pv → f.validate (some pv) = some pv)
    (hok : (loadOp st w p).2.1 = Except.ok calls) :
    ∃ cv, f.validate (some (Value.vStr s)) = some cv ∧
      (getOp (loadOp st w p).1 f.name).1 = Except.ok (some cv) := by
  obtain ⟨envv, raw, newv, henv, hparse, hcc, _⟩ :=
    loadOp_ok_decomp st w p calls hok
  have hgev : getKey (getEnvValues st.schema w.env) f.name = some (Value.vStr s) :=
    getEnvValues_getKey hnd hf hek hek' hvar hs
  have henv' : parseEnvWithSchema st.schema (getEnvValues st.schema w.env) =
      some envv := by
    unfold parseEnvValuesOp at henv
    cases hm : parseEnvWithSchema st.schema (getEnvValues st.schema w.env) with
    | none => rw [hm] at henv; simp at henv
    | some o =>
      rw [hm] at henv
      dsimp only at henv
      exact congrArg some (Except.ok.inj henv)
  obtain ⟨cv, hcv, hkey⟩ := envParse_getKey henv' hnd hf hek hek' hgev
  have hmerge : getKey (mergeObj raw envv) f.name = some cv := by
    rw [mergeObj_getKey, hkey]
  obtain ⟨pv, hpv, hnewkey⟩ := parse_mem_getKey hparse hnd hf
  rw [hmerge] at hpv
  have hpc : pv = cv := by
    have h2 := hre _ cv hcv
    rw [h2] at hpv
    exact (Option.some.inj hpv).symm
  subst hpc
  refine ⟨pv, hcv, ?_⟩
  unfold getOp
  rw [hcc]
  dsimp only
  rw [hnewkey]

/-- Witness for C3: with `PORT=8080` set and the source supplying
`port: 3000`, the post-load value of `port` is `8080`. -/
theorem env_overrides_source_value_witness :
    (getOp (loadOp (initState exSchema none none) envWorld
      (.direct (.obj exObj))).1 "port").1 = Except.ok (some (Value.vNum 8080)) := by
  obtain ⟨cv, hcv, hget⟩ := env_overrides_source_value
    (initState exSchema none none) envWorld (.direct (.obj exObj)) []
    portField "PORT" "8080" (by decide) (List.Mem.head _) rfl (by decide)
    (by decide) (by decide) (fun x pv => coerceNumber_reacc x pv) (by decide)
  have hcv8 : cv = Value.vNum 8080 := by
    have h8 : portField.validate (some (Value.vStr "8080")) =
        some (Value.vNum 8080) := by decide
    rw [h8] at hcv
    exact (Option.some.inj hcv).symm
  rw [hcv8] at hget
  exact hget

/-- C10 (frame): a load never changes an already-set adapter — whether it
was assigned explicitly or auto-selected by an earlier load — and the
adapter component can only change when it was previously unset. -/
theorem adapter_frame_under_load (st : ZState) (w : World) (p : RefParam) :
    (∀ a, st.adapter = some a → ((loadOp st w p).1).adapter = some a) ∧
    (((loadOp st w p).1).adapter = st.adapter ∨ st.adapter = none) := by
  constructor
  · exact fun a ha => loadOp_keeps_adapter st w p a ha
  · cases ha : st.adapter with
    | none => exact Or.inr rfl
    | some a => exact Or.inl (by rw [loadOp_keeps_adapter st w p a ha])

/-- Witness for C10: after auto-selecting the JSON adapter by loading
`conf.json`, loading `conf.yaml` still uses the JSON adapter. -/
theorem adapter_frame_under_load_witness :
    jsonLoaded.adapter = some Adapter.jsonA ∧
    ((loadOp jsonLoaded twoFileWorld (.direct (.path "conf.yaml"))).1).adapter =
      some Adapter.jsonA :=
  ⟨by decide, (adapter_frame_under_load jsonLoaded twoFileWorld
    (.direct (.path "conf.yaml"))).1 Adapter.jsonA (by decide)⟩

end ZodFigure
